import Mathlib

/-!
Shallow embedding of the EnergyMarket backend (`backend/app.py`): the
nanogrid simulation models (solar panel, battery, nanogrid), the
simplified blockchain ledger, the AI controller's greedy matching loop,
the offline simulation tick, and the transaction-history endpoint.

Python floats are modelled as rationals.  The SHA-256 block hash
(`hashlib.sha256(str(block)).hexdigest()`) is modelled as an abstract
function on the two shapes of dictionary the source ever hashes: the
four-key block dictionary as it exists before the hash key is inserted
(when a block is sealed), and the full five-key stored block, hash key
included (when the predecessor link of a later block is recomputed).
The printed four-key and five-key dictionaries are different strings,
so in the source the two digests are different hexadecimal strings
unless SHA-256 collides; the abstraction keeps the two cases separate
and assumes no relation between them.
-/

namespace EnergyMarket

/-- Embeds class `SolarPanel` of `backend/app.py`: a panel id plus a
cached last output.  (`get_output` uses `np.sin` and is never called by
the simulation tick, which draws `random.uniform` samples instead, so it
is not part of the embedding.) -/
structure SolarPanel where
  panel_id : Nat
  output : ℚ
  deriving DecidableEq

/-- Embeds `SolarPanel.__init__`: output starts at 0. -/
def SolarPanel.init (panel_id : Nat) : SolarPanel :=
  ⟨panel_id, 0⟩

/-- Embeds class `Battery` of `backend/app.py`. -/
structure Battery where
  battery_id : Nat
  capacity : ℚ
  state_of_charge : ℚ
  health : ℚ
  deriving DecidableEq

/-- Embeds `Battery.__init__(battery_id, capacity_kwh)`: capacity is
stored as given (no validation), initial state of charge is half the
capacity, health starts at 100.  The Python default for the capacity
argument is 20.0. -/
def Battery.init (battery_id : Nat) (capacity_kwh : ℚ) : Battery :=
  ⟨battery_id, capacity_kwh, capacity_kwh / 2, 100⟩

/-- Embeds `Battery.charge(power_kw, time_step_h)`.  The Python default
for the time step is 1.0; call sites in the embedding pass it explicitly. -/
def Battery.charge (b : Battery) (power_kw time_step_h : ℚ) : Battery :=
  { b with state_of_charge := min b.capacity (b.state_of_charge + power_kw * time_step_h) }

/-- Embeds `Battery.discharge(power_kw, time_step_h)`. -/
def Battery.discharge (b : Battery) (power_kw time_step_h : ℚ) : Battery :=
  { b with state_of_charge := max 0 (b.state_of_charge - power_kw * time_step_h) }

/-- Embeds class `Nanogrid` of `backend/app.py`. -/
structure Nanogrid where
  nanogrid_id : Nat
  solar_panel : SolarPanel
  battery : Battery
  load_demand : ℚ
  current_power_balance : ℚ
  deriving DecidableEq

/-- Embeds `Nanogrid.__init__(nanogrid_id)`: fresh panel and battery
(default capacity 20), load demand 5.0, power balance 0.0. -/
def Nanogrid.init (nanogrid_id : Nat) : Nanogrid :=
  ⟨nanogrid_id, SolarPanel.init nanogrid_id, Battery.init nanogrid_id 20, 5, 0⟩

/-- The dictionary returned by `Nanogrid.update_state`. -/
structure StateSnapshot where
  nanogrid_id : Nat
  solar_output : ℚ
  load_demand : ℚ
  battery_soc : ℚ
  power_balance : ℚ
  deriving DecidableEq

/-- Embeds `Nanogrid.update_state(solar_output)`.  Python mutates the
nanogrid in place and returns a status dictionary; the embedding returns
the snapshot together with the mutated nanogrid. -/
def Nanogrid.update_state (ng : Nanogrid) (solar_output : ℚ) : StateSnapshot × Nanogrid :=
  let net_power := solar_output - ng.load_demand
  let battery1 := if 0 < net_power
    then ng.battery.charge net_power 1
    else ng.battery.discharge |net_power| 1
  let ng1 : Nanogrid :=
    { ng with
      battery := battery1
      current_power_balance := net_power
      solar_panel := { ng.solar_panel with output := solar_output } }
  (⟨ng.nanogrid_id, solar_output, ng.load_demand, battery1.state_of_charge, net_power⟩, ng1)

/-- Embeds `Nanogrid.set_energy_trade(amount)`: a positive amount is a
sale (battery discharged), a non-positive amount is a purchase (battery
charged by the absolute value); the power balance drops by the amount in
both cases. -/
def Nanogrid.set_energy_trade (ng : Nanogrid) (amount : ℚ) : Nanogrid :=
  let battery1 := if 0 < amount
    then ng.battery.discharge amount 1
    else ng.battery.charge |amount| 1
  { ng with
    battery := battery1
    current_power_balance := ng.current_power_balance - amount }

/-- A pending ledger entry, as built by `Blockchain.add_transaction`.
In the offline simulation the sender and receiver keys are the nanogrid
address strings used by the controller's dictionary. -/
structure Transaction where
  sender : String
  receiver : String
  amount : ℚ
  deriving DecidableEq

/-- The fields of a block that are fed to the hash function: in the
Python source the hash is computed on the block dictionary before the
hash field itself is inserted. -/
structure BlockData where
  index : Nat
  timestamp : ℚ
  transactions : List Transaction
  previous_hash : String
  deriving DecidableEq

/-- A sealed block of the simplified blockchain. -/
structure Block where
  index : Nat
  timestamp : ℚ
  transactions : List Transaction
  previous_hash : String
  hash : String
  deriving DecidableEq

/-- The hashed fields of a sealed block. -/
def Block.data (b : Block) : BlockData :=
  ⟨b.index, b.timestamp, b.transactions, b.previous_hash⟩

/-- Embeds class `Blockchain` of `backend/app.py`: the sealed chain plus
the pending (unsealed) transaction buffer. -/
structure Blockchain where
  chain : List Block
  transactions : List Transaction
  deriving DecidableEq

/-- The argument of the source's hash helper
(`sha256(str(block_dict))`): either the four-key block dictionary as it
exists just before `block["hash"]` is inserted, or the full five-key
stored block, hash field included.  These print as different strings,
so the source feeds SHA-256 two different inputs in the two cases. -/
inductive HashInput where
  | withoutHash (d : BlockData)
  | withHash (b : Block)
  deriving DecidableEq

/-- The `previous_hash` field chosen by `Blockchain.new_block`.  The
Python expression parses as
`(previous_hash or self.hash(self.chain[-1])) if self.chain else "0"`:
on an empty chain the sentinel is always the string 0, otherwise the
given value is used unless it is falsy (absent or the empty string), in
which case `self.hash` is applied to the last sealed block as stored in
the chain — the full five-key dictionary, its hash key included, not
the four-key dictionary whose digest is that block's stored hash. -/
def prevHashOf (H : HashInput → String) (chain : List Block)
    (previous_hash : Option String) : String :=
  match chain.getLast? with
  | none => "0"
  | some last =>
    match previous_hash with
    | none => H (HashInput.withHash last)
    | some s => if s = "" then H (HashInput.withHash last) else s

/-- Embeds `Blockchain.new_block(previous_hash)`: builds a block from
the pending buffer, stamps it with the hash of its own four fields (the
hash key is inserted into the dictionary only after the digest is
computed), clears the buffer and appends the block to the chain.  The
timestamp (`time.time()` in Python) is passed explicitly.  Returns the
updated ledger together with the sealed block. -/
def Blockchain.new_block (bc : Blockchain) (H : HashInput → String)
    (timestamp : ℚ) (previous_hash : Option String) : Blockchain × Block :=
  let d : BlockData :=
    ⟨bc.chain.length + 1, timestamp, bc.transactions, prevHashOf H bc.chain previous_hash⟩
  let b : Block := ⟨d.index, d.timestamp, d.transactions, d.previous_hash,
    H (HashInput.withoutHash d)⟩
  (⟨bc.chain ++ [b], []⟩, b)

/-- Embeds `Blockchain.__init__`: empty chain and buffer, then one call
to `new_block(previous_hash="0")`, which seals the genesis block. -/
def Blockchain.init (H : HashInput → String) (timestamp : ℚ) : Blockchain :=
  (Blockchain.new_block ⟨[], []⟩ H timestamp (some ("0"))).1

/-- Embeds `Blockchain.add_transaction(sender, receiver, amount)`:
appends a record to the pending buffer. -/
def Blockchain.add_transaction (bc : Blockchain) (sender receiver : String)
    (amount : ℚ) : Blockchain :=
  { bc with transactions := bc.transactions ++ [⟨sender, receiver, amount⟩] }

/-- Every sealed block stores the hash of its own four fields, the way
`new_block` computes it. -/
def hashesOk (H : HashInput → String) (chain : List Block) : Bool :=
  chain.all fun b => b.hash == H (HashInput.withoutHash b.data)

/-- Every block after the first stores the predecessor's stored hash in
its previous-hash field — the link property claimed by the spec. -/
def linksOk : List Block → Bool
  | [] => true
  | [_] => true
  | a :: b :: rest => (b.previous_hash == a.hash) && linksOk (b :: rest)

/-- Full-chain integrity as the spec states it: reproducible hashes
plus matching links. -/
def chainOk (H : HashInput → String) (chain : List Block) : Bool :=
  hashesOk H chain && linksOk chain

/-- The nanogrid dictionary of the controller, keyed by address.  A
Python dict preserves insertion order, so an association list is the
faithful model. -/
abbrev NgMap := List (String × Nanogrid)

/-- First value stored under a key, if any (Python dict access). -/
def lookupOpt (k : String) : NgMap → Option Nanogrid
  | [] => none
  | (k2, ng) :: rest => if k2 = k then some ng else lookupOpt k rest

/-- Replaces the value stored under a key, leaving the map unchanged
when the key is absent (Python mutates the shared object in place; keys
of a dict are unique, so replacing the first occurrence is faithful). -/
def updateNg (k : String) (f : Nanogrid → Nanogrid) : NgMap → NgMap
  | [] => []
  | (k2, ng) :: rest =>
    if k2 = k then (k2, f ng) :: rest else (k2, ng) :: updateNg k f rest

/-- Embeds the buyer loop of `AI_Controller.manage_energy_market`.
Arguments: the remaining buyers (iteration order of the buyers dict),
the remaining sellers (insertion order of the sellers dict; only the
first entry is ever popped), the shared nanogrid map and the ledger's
pending transaction list.  Returns the final map, the remaining seller
pool, and the pending list.  In the source all keys are present in the
dictionary; the lookup is totalised with a fresh zero-balance nanogrid,
which forces the computed trade amount to be non-positive, making the
step a skip exactly as if the key carried no tradable balance. -/
def marketLoop : List String → List String → NgMap → List Transaction →
    NgMap × List String × List Transaction
  | [], sellers, ngs, txs => (ngs, sellers, txs)
  | _ :: _, [], ngs, txs => (ngs, [], txs)
  | buyer_id :: restBuyers, seller_id :: restSellers, ngs, txs =>
    let seller_ng := (lookupOpt seller_id ngs).getD (Nanogrid.init 0)
    let buyer_ng := (lookupOpt buyer_id ngs).getD (Nanogrid.init 0)
    let trade_amount := min |buyer_ng.current_power_balance| seller_ng.current_power_balance
    if trade_amount ≤ 0 then
      marketLoop restBuyers (seller_id :: restSellers) ngs txs
    else
      let seller2 := seller_ng.set_energy_trade trade_amount
      let ngs1 := updateNg seller_id (fun _ => seller2) ngs
      let buyer2 := ((lookupOpt buyer_id ngs1).getD (Nanogrid.init 0)).set_energy_trade (-trade_amount)
      let ngs2 := updateNg buyer_id (fun _ => buyer2) ngs1
      let sellers2 := if seller2.current_power_balance ≤ 0 then restSellers else seller_id :: restSellers
      marketLoop restBuyers sellers2 ngs2 (txs ++ [⟨seller_id, buyer_id, trade_amount⟩])

/-- Embeds `AI_Controller.manage_energy_market`: partitions the nanogrid
dictionary into sellers (positive balance) and buyers (negative
balance), runs the buyer loop, and leaves the recorded transactions in
the ledger's pending buffer.  The chain of sealed blocks is untouched. -/
def manage_energy_market (ngs : NgMap) (bc : Blockchain) : NgMap × Blockchain :=
  let sellers := (ngs.filter fun p => 0 < p.2.current_power_balance).map Prod.fst
  let buyers := (ngs.filter fun p => p.2.current_power_balance < 0).map Prod.fst
  let r := marketLoop buyers sellers ngs bc.transactions
  (r.1, { bc with transactions := r.2.2 })

/-- The shared offline-mode state: the nanogrid dictionary and the
in-process ledger. -/
structure SimState where
  nanogrids : NgMap
  blockchain : Blockchain
  deriving DecidableEq

/-- Embeds `init_simulation(num_nanogrids)`: nanogrids with ids 1..n
stored under their address strings, plus a fresh ledger.  The hex
address formatting of the source is display-only and is abstracted as an
address function. -/
def init_simulation (H : HashInput → String) (timestamp : ℚ) (num : Nat)
    (addr : Nat → String) : SimState :=
  ⟨(List.range num).map (fun i => (addr i, Nanogrid.init (i + 1))), Blockchain.init H timestamp⟩

/-- Embeds one iteration of the offline tick loop
(`run_simulation_thread`): each nanogrid gets a fresh load-demand sample
assigned and is updated with a fresh solar sample, then the market is
run.  The random samples are passed as functions of the address.  No
block is sealed by the loop body. -/
def tick (solar load : String → ℚ) (st : SimState) : SimState :=
  let ngs := st.nanogrids.map fun p =>
    (p.1, ({ p.2 with load_demand := load p.1 }.update_state (solar p.1)).2)
  let r := manage_energy_market ngs st.blockchain
  ⟨r.1, r.2⟩

/-- A record returned by the transactions endpoint. -/
structure ApiTransaction where
  sender : String
  receiver : String
  amountInKwh : ℚ
  timestamp : Int
  deriving DecidableEq

/-- Embeds the offline branch of the endpoint handler
`get_blockchain_transactions`: it reads the ledger's pending
transaction list and stamps every record with the query-time clock
value (`int(time.time())`), passed here as the argument. -/
def get_blockchain_transactions (now : Int) (bc : Blockchain) : List ApiTransaction :=
  bc.transactions.map fun tx => ⟨tx.sender, tx.receiver, tx.amount, now⟩

/-- Modelled from the spec: `getTransactions` returns the ordered
sequence of trade records drawn from all sealed blocks of the ledger,
oldest first.  This operation is absent from the offline code path and
is stated here only to compare the endpoint against it. -/
def getTransactions_spec (bc : Blockchain) : List Transaction :=
  (bc.chain.map Block.transactions).flatten

/-- A concrete stand-in hash function for closed evaluations. -/
def hConst : HashInput → String := fun _ => "h"

/-- A concrete stand-in hash function that, like SHA-256 on the two
distinct input strings the source produces, gives the four-key block
dictionary and the five-key stored block different digests.  (Both
shapes map to fixed strings here; in the source the two digests differ
on every seal unless SHA-256 collides, since the printed dictionaries
are different strings.) -/
def hCx : HashInput → String := fun i =>
  match i with
  | .withoutHash _ => "d"
  | .withHash _ => "f"

/-! ### Battery call sequences

The spec quantifies over sequences of charge and discharge calls, so a
call is reified as a value and a sequence of calls as a list. -/

/-- One call on a battery: a charge or a discharge with a power and a
time step. -/
inductive BatOp where
  | charge (power_kw time_step_h : ℚ)
  | discharge (power_kw time_step_h : ℚ)
  deriving DecidableEq

/-- Applies one call to a battery. -/
def BatOp.apply (b : Battery) : BatOp → Battery
  | .charge p dt => b.charge p dt
  | .discharge p dt => b.discharge p dt

/-- Runs a sequence of calls, first call first. -/
def Battery.runOps (b : Battery) (ops : List BatOp) : Battery :=
  ops.foldl BatOp.apply b

/-- A call whose power and time-step arguments are non-negative. -/
def BatOp.nonneg : BatOp → Prop
  | .charge p dt => 0 ≤ p ∧ 0 ≤ dt
  | .discharge p dt => 0 ≤ p ∧ 0 ≤ dt

/-! ### Derived views of the matching loop -/

/-- The trade amount computed for the head buyer and head seller:
the minimum of the buyer's absolute balance and the seller's balance,
exactly the loop's local variable. -/
def tradeAmt (buyer_id seller_id : String) (ngs : NgMap) : ℚ :=
  min |((lookupOpt buyer_id ngs).getD (Nanogrid.init 0)).current_power_balance|
    ((lookupOpt seller_id ngs).getD (Nanogrid.init 0)).current_power_balance

/-- The nanogrid map after one recorded trade between the head seller
and the head buyer: the seller sells the trade amount, then the buyer
buys it, exactly the two settlement calls of the loop body. -/
def tradeApply (buyer_id seller_id : String) (ngs : NgMap) : NgMap :=
  let seller2 := ((lookupOpt seller_id ngs).getD (Nanogrid.init 0)).set_energy_trade
    (tradeAmt buyer_id seller_id ngs)
  let ngs1 := updateNg seller_id (fun _ => seller2) ngs
  let buyer2 := ((lookupOpt buyer_id ngs1).getD (Nanogrid.init 0)).set_energy_trade
    (-(tradeAmt buyer_id seller_id ngs))
  updateNg buyer_id (fun _ => buyer2) ngs1

/-- Sum of the power balances over the nanogrid dictionary. -/
def sumBalances (l : NgMap) : ℚ :=
  (l.map fun p => p.2.current_power_balance).sum

/-! ### Concrete inputs for closed evaluations -/

/-- Address constant used by concrete scenarios. -/
def addrA : String := "A"

/-- Address constant used by concrete scenarios. -/
def addrB : String := "B"

/-- The two-node scenario of the spec: seller A with balance +10,
buyer B with balance -4. -/
def ngsScenario : NgMap :=
  [(addrA, { Nanogrid.init 1 with current_power_balance := 10 }),
   (addrB, { Nanogrid.init 2 with current_power_balance := -4 })]

/-- Concrete address assignment for a two-node tick. -/
def addrCx : Nat → String := fun i => if i = 0 then addrA else addrB

/-- Concrete solar samples for a two-node tick: node A gets 10, node B
gets 4. -/
def solarCx : String → ℚ := fun a => if a = addrA then 10 else 4

/-- Concrete load samples for a two-node tick: node A gets 4, node B
gets 10, so A ends the update with balance +6 and B with balance -6. -/
def loadCx : String → ℚ := fun a => if a = addrA then 4 else 10

/-! ## Helper lemmas -/

theorem BatOp.apply_capacity (b : Battery) (op : BatOp) :
    (BatOp.apply b op).capacity = b.capacity := by
  cases op <;> rfl

theorem BatOp.apply_soc_bounds (b : Battery) (op : BatOp) (hop : op.nonneg)
    (h0 : 0 ≤ b.state_of_charge) (h1 : b.state_of_charge ≤ b.capacity) :
    0 ≤ (BatOp.apply b op).state_of_charge ∧
      (BatOp.apply b op).state_of_charge ≤ b.capacity := by
  have hcap : (0 : ℚ) ≤ b.capacity := le_trans h0 h1
  cases op with
  | charge p dt =>
    obtain ⟨hp, hdt⟩ := hop
    constructor
    · exact le_min hcap (add_nonneg h0 (mul_nonneg hp hdt))
    · exact min_le_left _ _
  | discharge p dt =>
    obtain ⟨hp, hdt⟩ := hop
    constructor
    · exact le_max_left 0 _
    · exact max_le hcap (le_trans (sub_le_self _ (mul_nonneg hp hdt)) h1)

theorem Battery.runOps_soc_bounds (b : Battery) (ops : List BatOp)
    (hops : ∀ op ∈ ops, op.nonneg)
    (h0 : 0 ≤ b.state_of_charge) (h1 : b.state_of_charge ≤ b.capacity) :
    0 ≤ (b.runOps ops).state_of_charge ∧
      (b.runOps ops).state_of_charge ≤ (b.runOps ops).capacity := by
  induction ops generalizing b with
  | nil => exact ⟨h0, h1⟩
  | cons op rest ih =>
    have hstep := BatOp.apply_soc_bounds b op (hops op (by simp)) h0 h1
    have hcap := BatOp.apply_capacity b op
    have hrest := ih (BatOp.apply b op) (fun o ho => hops o (by simp [ho]))
      hstep.1 (by rw [hcap]; exact hstep.2)
    simpa [Battery.runOps] using hrest

/-! ## Claims -/

/-- C6 (counterexample): the claim quantifies over every sequence of
charge and discharge calls on a battery with positive capacity and
asserts the state of charge stays in the closed interval from 0 to the
capacity.  A single charge call with a negative power argument drives
the state of charge of a capacity-20 battery to -90, outside the
interval, so the claim as stated is false. -/
theorem charge_negative_power_counterexample :
    0 < (20 : ℚ) ∧
      ((Battery.init 1 20).runOps [BatOp.charge (-100) 1]).state_of_charge < 0 := by
  constructor
  · norm_num
  · norm_num [Battery.runOps, BatOp.apply, Battery.init, Battery.charge, min_def]

/-- C6 (amended): for every sequence of charge and discharge calls with
non-negative power and time-step arguments on a battery constructed
with positive capacity, the state of charge always stays between 0 and
the capacity; both operations clamp at the bounds and are total. -/
theorem soc_bounds_nonneg_ops (battery_id : Nat) (cap : ℚ) (ops : List BatOp)
    (hcap : 0 < cap) (hops : ∀ op ∈ ops, op.nonneg) :
    0 ≤ ((Battery.init battery_id cap).runOps ops).state_of_charge ∧
      ((Battery.init battery_id cap).runOps ops).state_of_charge ≤
        ((Battery.init battery_id cap).runOps ops).capacity := by
  refine Battery.runOps_soc_bounds _ ops hops ?_ ?_
  · show (0 : ℚ) ≤ cap / 2
    positivity
  · show cap / 2 ≤ cap
    exact half_le_self hcap.le

/-- Witness for the amended C6 at a concrete input: capacity 20, one
overfull charge then one overfull discharge, both clamped. -/
theorem soc_bounds_nonneg_ops_witness :
    0 ≤ ((Battery.init 1 20).runOps [BatOp.charge 50 1, BatOp.discharge 100 1]).state_of_charge ∧
      ((Battery.init 1 20).runOps [BatOp.charge 50 1, BatOp.discharge 100 1]).state_of_charge ≤
        ((Battery.init 1 20).runOps [BatOp.charge 50 1, BatOp.discharge 100 1]).capacity := by
  refine soc_bounds_nonneg_ops 1 20 [BatOp.charge 50 1, BatOp.discharge 100 1] (by norm_num) ?_
  intro op hop
  simp only [List.mem_cons, List.not_mem_nil, or_false] at hop
  rcases hop with rfl | rfl
  · exact ⟨by norm_num, by norm_num⟩
  · exact ⟨by norm_num, by norm_num⟩

/-- C5: applying a trade of positive amount a settles the seller with a
balance drop of exactly a and a battery discharge call of a, and the
buyer (called with -a) with a balance rise of exactly a and a battery
charge call of a; the id, panel and load-demand fields of both nodes
are unchanged. -/
theorem set_energy_trade_effects (s b : Nanogrid) (a : ℚ) (ha : 0 < a) :
    (s.set_energy_trade a).current_power_balance = s.current_power_balance - a ∧
    (s.set_energy_trade a).battery = s.battery.discharge a 1 ∧
    (s.set_energy_trade a).nanogrid_id = s.nanogrid_id ∧
    (s.set_energy_trade a).solar_panel = s.solar_panel ∧
    (s.set_energy_trade a).load_demand = s.load_demand ∧
    (b.set_energy_trade (-a)).current_power_balance = b.current_power_balance + a ∧
    (b.set_energy_trade (-a)).battery = b.battery.charge a 1 ∧
    (b.set_energy_trade (-a)).nanogrid_id = b.nanogrid_id ∧
    (b.set_energy_trade (-a)).solar_panel = b.solar_panel ∧
    (b.set_energy_trade (-a)).load_demand = b.load_demand := by
  have hna : ¬ 0 < -a := by linarith
  have habs : |(-a)| = a := by rw [abs_neg, abs_of_pos ha]
  refine ⟨rfl, ?_, rfl, rfl, rfl, ?_, ?_, rfl, rfl, rfl⟩
  · simp [Nanogrid.set_energy_trade, ha]
  · simp [Nanogrid.set_energy_trade, sub_neg_eq_add]
  · simp [Nanogrid.set_energy_trade, hna, habs]

/-- Witness for C5 at a concrete input: a trade of amount 4. -/
theorem set_energy_trade_effects_witness :
    ((Nanogrid.init 1).set_energy_trade 4).current_power_balance =
      (Nanogrid.init 1).current_power_balance - 4 :=
  (set_energy_trade_effects (Nanogrid.init 1) (Nanogrid.init 2) 4 (by norm_num)).1

/-- C7 (counterexample): the claim lists the battery update, the power
balance and the returned snapshot as the only effects of update_state,
but the source also overwrites the solar panel's cached output: on a
fresh node the cached output changes from 0 to the argument 7. -/
theorem update_state_changes_panel_output_counterexample :
    ((Nanogrid.init 1).update_state 7).2.solar_panel.output ≠
      (Nanogrid.init 1).solar_panel.output := by
  norm_num [Nanogrid.update_state, Nanogrid.init, SolarPanel.init]

/-- C7 (amended): update_state computes net as solar output minus load
demand, charges the battery by net when net is positive and otherwise
discharges it by the absolute value, sets the power balance to net,
updates the solar panel's cached output to the argument, and returns
the snapshot of id, solar output, load demand, post-update state of
charge and net; the id, load demand and the battery's identity,
capacity and health fields are unchanged. -/
theorem update_state_effects (ng : Nanogrid) (solar_output : ℚ) :
    ((ng.update_state solar_output).2.current_power_balance = solar_output - ng.load_demand) ∧
    (0 < solar_output - ng.load_demand →
      (ng.update_state solar_output).2.battery =
        ng.battery.charge (solar_output - ng.load_demand) 1) ∧
    (¬ 0 < solar_output - ng.load_demand →
      (ng.update_state solar_output).2.battery =
        ng.battery.discharge |solar_output - ng.load_demand| 1) ∧
    (ng.update_state solar_output).2.solar_panel =
      { ng.solar_panel with output := solar_output } ∧
    (ng.update_state solar_output).2.load_demand = ng.load_demand ∧
    (ng.update_state solar_output).2.nanogrid_id = ng.nanogrid_id ∧
    (ng.update_state solar_output).2.battery.battery_id = ng.battery.battery_id ∧
    (ng.update_state solar_output).2.battery.capacity = ng.battery.capacity ∧
    (ng.update_state solar_output).2.battery.health = ng.battery.health ∧
    (ng.update_state solar_output).1 =
      ⟨ng.nanogrid_id, solar_output, ng.load_demand,
        (ng.update_state solar_output).2.battery.state_of_charge,
        solar_output - ng.load_demand⟩ := by
  refine ⟨rfl, fun h => ?_, fun h => ?_, rfl, rfl, rfl, ?_, ?_, ?_, rfl⟩
  · simp [Nanogrid.update_state, h]
  · simp [Nanogrid.update_state, h]
  all_goals
    by_cases h : 0 < solar_output - ng.load_demand <;>
      simp [Nanogrid.update_state, h, Battery.charge, Battery.discharge]

/-- Witness for the amended C7 at a concrete input: a fresh node with
load demand 5 updated with solar output 7 charges its battery by net 2. -/
theorem update_state_effects_witness :
    ((Nanogrid.init 1).update_state 7).2.battery =
      (Nanogrid.init 1).battery.charge (7 - (Nanogrid.init 1).load_demand) 1 :=
  (update_state_effects (Nanogrid.init 1) 7).2.1 (by norm_num [Nanogrid.init])

/-- C9 (counterexample): the claim says construction of a battery with
zero or negative capacity fails fatally; in the source the constructor
performs no validation, so a battery with capacity -5 is constructed
normally, storing the invalid capacity verbatim with half of it as the
state of charge. -/
theorem battery_accepts_negative_capacity_counterexample :
    (Battery.init 1 (-5)).capacity = -5 ∧
      (Battery.init 1 (-5)).state_of_charge = -5 / 2 ∧
      (Battery.init 1 (-5)).health = 100 := by
  refine ⟨rfl, ?_, rfl⟩
  norm_num [Battery.init]

/-- C1 (code bug, evaluated at the failing input): sealing one block
after genesis.  The genesis ledger itself satisfies the claim (one
block, and trivially integral), and on the two-block chain every
block's stored hash is still reproducible from its own four fields —
but the link fails: the second block's previous-hash field holds the
digest of the full stored genesis block (hash key included), which is
not the genesis block's stored hash (the digest of its four fields),
because the source hashes the mutated dictionary when it recomputes the
predecessor link.  The claimed invariant is therefore violated by the
first seal after construction. -/
theorem seal_breaks_hash_link :
    (Blockchain.init hCx 0).chain.length = 1 ∧
    chainOk hCx (Blockchain.init hCx 0).chain = true ∧
    ((Blockchain.init hCx 0).new_block hCx 1 none).1.chain.length = 2 ∧
    hashesOk hCx ((Blockchain.init hCx 0).new_block hCx 1 none).1.chain = true ∧
    linksOk ((Blockchain.init hCx 0).new_block hCx 1 none).1.chain = false ∧
    chainOk hCx ((Blockchain.init hCx 0).new_block hCx 1 none).1.chain = false :=
  ⟨rfl, rfl, rfl, rfl, rfl, rfl⟩

/-- C2 (counterexample): the claim says one tick that produced one
trade leaves the ledger with 2 blocks.  On a fresh two-node simulation
a tick with samples that force exactly one trade leaves the chain at 1
block (the genesis block), with the trade sitting in the pending
buffer: the tick loop never calls the seal operation. -/
theorem tick_does_not_seal_counterexample :
    (tick solarCx loadCx (init_simulation hConst 0 2 addrCx)).blockchain.chain.length = 1 ∧
    (tick solarCx loadCx (init_simulation hConst 0 2 addrCx)).blockchain.transactions
      = [⟨addrA, addrB, 6⟩] := by
  constructor
  · rfl
  · have hAB : (addrA = addrB) = False := by simp [addrA, addrB]
    have hBA : (addrB = addrA) = False := by simp [addrA, addrB]
    have hAA : (addrA = addrA) = True := by simp
    have hBB : (addrB = addrB) = True := by simp
    norm_num [tick, init_simulation, manage_energy_market, marketLoop, lookupOpt, updateNg,
      Nanogrid.update_state, Nanogrid.set_energy_trade, Nanogrid.init, Battery.init,
      SolarPanel.init, Battery.charge, Battery.discharge, Blockchain.init,
      Blockchain.new_block, prevHashOf, addrCx, solarCx, loadCx, hConst,
      min_def, max_def, List.range_succ, hAB, hBA, hAA, hBB]

/-- C2 (amended): each iteration of the offline tick loop runs the
matching engine but never seals a block: the chain of sealed blocks —
in particular the genesis block and its hash — is left entirely
unchanged by a tick, and the tick's trades accumulate in the ledger's
pending transaction buffer instead. -/
theorem tick_preserves_chain (solar load : String → ℚ) (st : SimState) :
    (tick solar load st).blockchain.chain = st.blockchain.chain := rfl

/-- C3 (counterexample): the claim says the transactions endpoint
returns the records drawn from the sealed blocks of the ledger.  On a
ledger whose sealed blocks hold no transaction but whose pending buffer
holds one, the endpoint returns one record while the sealed blocks
contribute none: the endpoint reads the pending buffer, not the chain. -/
theorem transactions_endpoint_reads_pending_counterexample :
    (get_blockchain_transactions 5
      ((Blockchain.init hConst 0).add_transaction addrA addrB 6)).length = 1 ∧
    (getTransactions_spec
      ((Blockchain.init hConst 0).add_transaction addrA addrB 6)).length = 0 := by
  constructor <;> rfl

/-- C3 (amended): the transactions endpoint in simulation mode returns
exactly the ledger's pending (unsealed) transaction buffer, oldest
first (add_transaction appends at the end), each record stamped with
the query-time clock value; sealed blocks are not consulted and the
chain is untouched by recording a transaction. -/
theorem transactions_endpoint_returns_pending (now : Int) (bc : Blockchain)
    (s r : String) (a : ℚ) :
    get_blockchain_transactions now bc =
      bc.transactions.map (fun tx => ⟨tx.sender, tx.receiver, tx.amount, now⟩) ∧
    (bc.add_transaction s r a).transactions = bc.transactions ++ [⟨s, r, a⟩] ∧
    (bc.add_transaction s r a).chain = bc.chain :=
  ⟨rfl, rfl, rfl⟩

theorem marketLoop_cons (buyer_id seller_id : String) (restBuyers restSellers : List String)
    (ngs : NgMap) (txs : List Transaction) :
    marketLoop (buyer_id :: restBuyers) (seller_id :: restSellers) ngs txs =
      (if tradeAmt buyer_id seller_id ngs ≤ 0 then
        marketLoop restBuyers (seller_id :: restSellers) ngs txs
      else
        marketLoop restBuyers
          (if (((lookupOpt seller_id ngs).getD (Nanogrid.init 0)).set_energy_trade
                (tradeAmt buyer_id seller_id ngs)).current_power_balance ≤ 0
            then restSellers else seller_id :: restSellers)
          (tradeApply buyer_id seller_id ngs)
          (txs ++ [⟨seller_id, buyer_id, tradeAmt buyer_id seller_id ngs⟩])) :=
  rfl

theorem marketLoop_cons_of_nonpos (buyer_id seller_id : String)
    (restBuyers restSellers : List String) (ngs : NgMap) (txs : List Transaction)
    (h : tradeAmt buyer_id seller_id ngs ≤ 0) :
    marketLoop (buyer_id :: restBuyers) (seller_id :: restSellers) ngs txs =
      marketLoop restBuyers (seller_id :: restSellers) ngs txs := by
  rw [marketLoop_cons, if_pos h]

theorem marketLoop_cons_of_pos (buyer_id seller_id : String)
    (restBuyers restSellers : List String) (ngs : NgMap) (txs : List Transaction)
    (h : ¬ tradeAmt buyer_id seller_id ngs ≤ 0) :
    marketLoop (buyer_id :: restBuyers) (seller_id :: restSellers) ngs txs =
      marketLoop restBuyers
        (if (((lookupOpt seller_id ngs).getD (Nanogrid.init 0)).set_energy_trade
              (tradeAmt buyer_id seller_id ngs)).current_power_balance ≤ 0
          then restSellers else seller_id :: restSellers)
        (tradeApply buyer_id seller_id ngs)
        (txs ++ [⟨seller_id, buyer_id, tradeAmt buyer_id seller_id ngs⟩]) := by
  rw [marketLoop_cons, if_neg h]

theorem lookupOpt_updateNg (k q : String) (f : Nanogrid → Nanogrid) (l : NgMap) :
    lookupOpt q (updateNg k f l) =
      if k = q then (lookupOpt q l).map f else lookupOpt q l := by
  induction l with
  | nil => simp [lookupOpt, updateNg]
  | cons p rest ih =>
    obtain ⟨k2, ng⟩ := p
    by_cases h1 : k2 = k
    · subst h1
      by_cases h2 : k2 = q
      · subst h2
        simp [updateNg, lookupOpt]
      · have hkq : ¬ k2 = q := h2
        simp [updateNg, lookupOpt, hkq]
    · by_cases h2 : k2 = q
      · subst h2
        have hkq : ¬ k = k2 := fun hq => h1 hq.symm
        simp [updateNg, lookupOpt, h1, hkq]
      · simp [updateNg, lookupOpt, h1, h2, ih]

theorem sumBalances_cons (k : String) (v : Nanogrid) (rest : NgMap) :
    sumBalances ((k, v) :: rest) = v.current_power_balance + sumBalances rest := by
  simp [sumBalances]

theorem sumBalances_updateNg (k : String) (v w : Nanogrid) (l : NgMap)
    (h : lookupOpt k l = some w) :
    sumBalances (updateNg k (fun _ => v) l) =
      sumBalances l - w.current_power_balance + v.current_power_balance := by
  induction l with
  | nil => simp [lookupOpt] at h
  | cons p rest ih =>
    obtain ⟨k2, ng⟩ := p
    by_cases hk : k2 = k
    · subst hk
      have hw : ng = w := by simpa [lookupOpt] using h
      subst hw
      simp [updateNg, sumBalances_cons]
      ring
    · have hrest : lookupOpt k rest = some w := by simpa [lookupOpt, hk] using h
      simp [updateNg, hk, sumBalances_cons, ih hrest]
      ring

theorem lookupOpt_of_tradeAmt_pos (buyer_id seller_id : String) (ngs : NgMap)
    (h : 0 < tradeAmt buyer_id seller_id ngs) :
    (∃ sv, lookupOpt seller_id ngs = some sv) ∧
      (∃ bv, lookupOpt buyer_id ngs = some bv) := by
  constructor
  · cases hcase : lookupOpt seller_id ngs with
    | some sv => exact ⟨sv, rfl⟩
    | none =>
      exfalso
      have hle : tradeAmt buyer_id seller_id ngs ≤ 0 := by
        unfold tradeAmt
        rw [hcase]
        exact min_le_right _ _
      linarith
  · cases hcase : lookupOpt buyer_id ngs with
    | some bv => exact ⟨bv, rfl⟩
    | none =>
      exfalso
      have habs : |((lookupOpt buyer_id ngs).getD (Nanogrid.init 0)).current_power_balance| = 0 := by
        rw [hcase]
        exact abs_zero
      have hle : tradeAmt buyer_id seller_id ngs ≤ 0 := by
        unfold tradeAmt
        rw [← habs]
        exact min_le_left _ _
      linarith

theorem set_energy_trade_balance (ng : Nanogrid) (a : ℚ) :
    (ng.set_energy_trade a).current_power_balance = ng.current_power_balance - a :=
  rfl

theorem sumBalances_tradeApply (buyer_id seller_id : String) (ngs : NgMap)
    (h : 0 < tradeAmt buyer_id seller_id ngs) :
    sumBalances (tradeApply buyer_id seller_id ngs) = sumBalances ngs := by
  obtain ⟨⟨sv, hs⟩, ⟨bv, hb⟩⟩ := lookupOpt_of_tradeAmt_pos buyer_id seller_id ngs h
  have hsum1 : sumBalances (updateNg seller_id
      (fun _ => ((lookupOpt seller_id ngs).getD (Nanogrid.init 0)).set_energy_trade
        (tradeAmt buyer_id seller_id ngs)) ngs) =
      sumBalances ngs - sv.current_power_balance +
        (sv.set_energy_trade (tradeAmt buyer_id seller_id ngs)).current_power_balance := by
    rw [hs]
    exact sumBalances_updateNg seller_id _ sv ngs hs
  obtain ⟨w1, hw1⟩ : ∃ w1, lookupOpt buyer_id (updateNg seller_id
      (fun _ => ((lookupOpt seller_id ngs).getD (Nanogrid.init 0)).set_energy_trade
        (tradeAmt buyer_id seller_id ngs)) ngs) = some w1 := by
    rw [lookupOpt_updateNg]
    by_cases hsb : seller_id = buyer_id
    · rw [if_pos hsb, hb]
      exact ⟨_, rfl⟩
    · rw [if_neg hsb, hb]
      exact ⟨bv, rfl⟩
  have hsum2 := sumBalances_updateNg buyer_id
    (w1.set_energy_trade (-(tradeAmt buyer_id seller_id ngs))) w1 _ hw1
  simp only [tradeApply, hw1, Option.getD_some]
  rw [hsum2, hsum1, set_energy_trade_balance, set_energy_trade_balance]
  ring

theorem marketLoop_sumBalances (buyers : List String) :
    ∀ (sellers : List String) (ngs : NgMap) (txs : List Transaction),
      sumBalances (marketLoop buyers sellers ngs txs).1 = sumBalances ngs := by
  induction buyers with
  | nil => intro sellers ngs txs; rfl
  | cons buyer_id restB ih =>
    intro sellers ngs txs
    cases sellers with
    | nil => rfl
    | cons seller_id restS =>
      by_cases h : tradeAmt buyer_id seller_id ngs ≤ 0
      · rw [marketLoop_cons_of_nonpos buyer_id seller_id restB restS ngs txs h, ih]
      · rw [marketLoop_cons_of_pos buyer_id seller_id restB restS ngs txs h, ih]
        exact sumBalances_tradeApply buyer_id seller_id ngs (not_le.mp h)

theorem marketLoop_txs_mem (buyers : List String) :
    ∀ (sellers : List String) (ngs : NgMap) (txs : List Transaction) (t : Transaction),
      t ∈ (marketLoop buyers sellers ngs txs).2.2 → t ∈ txs ∨ 0 < t.amount := by
  induction buyers with
  | nil => intro sellers ngs txs t ht; exact Or.inl ht
  | cons buyer_id restB ih =>
    intro sellers ngs txs t ht
    cases sellers with
    | nil => exact Or.inl ht
    | cons seller_id restS =>
      by_cases h : tradeAmt buyer_id seller_id ngs ≤ 0
      · rw [marketLoop_cons_of_nonpos buyer_id seller_id restB restS ngs txs h] at ht
        exact ih _ _ _ t ht
      · rw [marketLoop_cons_of_pos buyer_id seller_id restB restS ngs txs h] at ht
        rcases ih _ _ _ t ht with hmem | hpos
        · rcases List.mem_append.mp hmem with h1 | h1
          · exact Or.inl h1
          · right
            have ht2 : t = ⟨seller_id, buyer_id, tradeAmt buyer_id seller_id ngs⟩ := by
              simpa using h1
            rw [ht2]
            exact not_le.mp h
        · exact Or.inr hpos

/-- C4: when the head buyer and head seller yield a positive trade
amount, the loop records exactly one trade whose amount is the minimum
of the buyer's absolute balance and the seller's balance, settles both
nodes, and removes the seller from the pool exactly when its settled
balance is at most 0; on the two-node scenario (seller A at +10, buyer
B at -4) one call yields the single trade (A, B, 4), leaves A at
balance 6 and still in the seller pool, and B at balance 0. -/
theorem matching_min_amount_and_seller_removal :
    (∀ (buyer_id seller_id : String) (restB restS : List String) (ngs : NgMap)
        (txs : List Transaction),
      0 < min |((lookupOpt buyer_id ngs).getD (Nanogrid.init 0)).current_power_balance|
            ((lookupOpt seller_id ngs).getD (Nanogrid.init 0)).current_power_balance →
      marketLoop (buyer_id :: restB) (seller_id :: restS) ngs txs =
        marketLoop restB
          (if (((lookupOpt seller_id ngs).getD (Nanogrid.init 0)).set_energy_trade
                (min |((lookupOpt buyer_id ngs).getD (Nanogrid.init 0)).current_power_balance|
                  ((lookupOpt seller_id ngs).getD
                    (Nanogrid.init 0)).current_power_balance)).current_power_balance ≤ 0
            then restS else seller_id :: restS)
          (tradeApply buyer_id seller_id ngs)
          (txs ++ [⟨seller_id, buyer_id,
            min |((lookupOpt buyer_id ngs).getD (Nanogrid.init 0)).current_power_balance|
              ((lookupOpt seller_id ngs).getD (Nanogrid.init 0)).current_power_balance⟩])) ∧
    (manage_energy_market ngsScenario (Blockchain.init hConst 0)).2.transactions
      = [⟨addrA, addrB, 4⟩] ∧
    ((lookupOpt addrA (manage_energy_market ngsScenario (Blockchain.init hConst 0)).1).getD
      (Nanogrid.init 0)).current_power_balance = 6 ∧
    ((lookupOpt addrB (manage_energy_market ngsScenario (Blockchain.init hConst 0)).1).getD
      (Nanogrid.init 0)).current_power_balance = 0 ∧
    (marketLoop [addrB] [addrA] ngsScenario []).2.1 = [addrA] := by
  have hAB : (addrA = addrB) = False := by simp [addrA, addrB]
  have hBA : (addrB = addrA) = False := by simp [addrA, addrB]
  have hAA : (addrA = addrA) = True := by simp
  have hBB : (addrB = addrB) = True := by simp
  refine ⟨?_, ?_, ?_, ?_, ?_⟩
  · intro buyer_id seller_id restB restS ngs txs h
    exact marketLoop_cons_of_pos buyer_id seller_id restB restS ngs txs (not_le.mpr h)
  all_goals
    norm_num [manage_energy_market, marketLoop, ngsScenario, lookupOpt, updateNg,
      Nanogrid.set_energy_trade, Nanogrid.init, Battery.init, SolarPanel.init,
      Battery.charge, Battery.discharge, Blockchain.init, Blockchain.new_block,
      prevHashOf, hConst, min_def, max_def, hAB, hBA, hAA, hBB]

/-- Witness for C4 at a concrete input: the two-node scenario
discharges the positivity hypothesis with trade amount 4. -/
theorem matching_min_amount_and_seller_removal_witness :
    marketLoop [addrB] [addrA] ngsScenario [] =
      marketLoop []
        (if (((lookupOpt addrA ngsScenario).getD (Nanogrid.init 0)).set_energy_trade
              (min |((lookupOpt addrB ngsScenario).getD (Nanogrid.init 0)).current_power_balance|
                ((lookupOpt addrA ngsScenario).getD
                  (Nanogrid.init 0)).current_power_balance)).current_power_balance ≤ 0
          then [] else [addrA])
        (tradeApply addrB addrA ngsScenario)
        ([] ++ [⟨addrA, addrB,
          min |((lookupOpt addrB ngsScenario).getD (Nanogrid.init 0)).current_power_balance|
            ((lookupOpt addrA ngsScenario).getD (Nanogrid.init 0)).current_power_balance⟩]) :=
  matching_min_amount_and_seller_removal.1 addrB addrA [] [] ngsScenario []
    (by
      have hAB : (addrA = addrB) = False := by simp [addrA, addrB]
      have hBA : (addrB = addrA) = False := by simp [addrA, addrB]
      have hBB : (addrB = addrB) = True := by simp
      norm_num [lookupOpt, ngsScenario, Nanogrid.init, min_def, hAB, hBA, hBB])

/-- C8: the matching engine never records a trade with a non-positive
amount: a head pair with non-positive computed trade amount is skipped
with no trade recorded and no seller removed, and every transaction the
market run leaves in the pending buffer either was already pending
before the run or has a strictly positive amount. -/
theorem no_nonpositive_trades :
    (∀ (buyer_id seller_id : String) (restB restS : List String) (ngs : NgMap)
        (txs : List Transaction),
      min |((lookupOpt buyer_id ngs).getD (Nanogrid.init 0)).current_power_balance|
          ((lookupOpt seller_id ngs).getD (Nanogrid.init 0)).current_power_balance ≤ 0 →
      marketLoop (buyer_id :: restB) (seller_id :: restS) ngs txs =
        marketLoop restB (seller_id :: restS) ngs txs) ∧
    (∀ (ngs : NgMap) (bc : Blockchain) (t : Transaction),
      t ∈ (manage_energy_market ngs bc).2.transactions →
        t ∈ bc.transactions ∨ 0 < t.amount) := by
  constructor
  · intro buyer_id seller_id restB restS ngs txs h
    exact marketLoop_cons_of_nonpos buyer_id seller_id restB restS ngs txs h
  · intro ngs bc t ht
    have ht2 : t ∈ (marketLoop
        ((ngs.filter fun p => p.2.current_power_balance < 0).map Prod.fst)
        ((ngs.filter fun p => 0 < p.2.current_power_balance).map Prod.fst)
        ngs bc.transactions).2.2 := ht
    exact marketLoop_txs_mem _ _ _ _ t ht2

/-- Witness for C8 at a concrete input: on an empty map the totalised
lookups yield balance 0, the computed amount is 0, and the buyer is
skipped with the seller kept. -/
theorem no_nonpositive_trades_witness :
    marketLoop [addrB] [addrA] [] [] = marketLoop [] [addrA] [] [] :=
  no_nonpositive_trades.1 addrB addrA [] [] [] []
    (by norm_num [lookupOpt, Nanogrid.init])

/-- C10: a full run of the matching engine preserves the sum of the
power balances over the nanogrid population: each recorded trade lowers
the seller's balance and raises the buyer's balance by the same amount. -/
theorem manage_energy_market_preserves_total_balance (ngs : NgMap) (bc : Blockchain) :
    sumBalances (manage_energy_market ngs bc).1 = sumBalances ngs := by
  simp only [manage_energy_market]
  exact marketLoop_sumBalances _ _ ngs bc.transactions

/-- C9 (amended): battery construction performs no validation at all:
any capacity, including zero or negative values, is accepted and stored
verbatim (never defaulted), with state of charge half the capacity and
health 100. -/
theorem battery_init_stores_capacity_verbatim (battery_id : Nat) (capacity_kwh : ℚ) :
    (Battery.init battery_id capacity_kwh).capacity = capacity_kwh ∧
      (Battery.init battery_id capacity_kwh).state_of_charge = capacity_kwh / 2 ∧
      (Battery.init battery_id capacity_kwh).health = 100 ∧
      (Battery.init battery_id capacity_kwh).battery_id = battery_id :=
  ⟨rfl, rfl, rfl, rfl⟩

end EnergyMarket
